import Mathlib

/-!
Shallow embedding of the dart-lldb JIT plugin (src/DartJITPlugin.cpp).
C++ std::string values are modelled as `List Char`; the three global
unordered_maps keyed by code address are modelled as association lists
with C++ `operator[]`/assignment semantics; the LLDB host (symbol
resolution, foreign-memory reads, breakpoint creation) is modelled as an
explicit environment of read results supplied to the breakpoint callback.
-/

namespace DartJIT

/-- A C++ std::string, as a list of characters. -/
abbrev Str := List Char

/-- C tolower on one character (ASCII, "C" locale), as used via
std::transform in MatchesPending. -/
def toLowerChar (c : Char) : Char :=
  if 'A' ≤ c ∧ c ≤ 'Z' then Char.ofNat (c.toNat + 32) else c

/-- Lower-case a whole string, as std::transform with ::tolower does. -/
def toLowerStr (s : Str) : Str := s.map toLowerChar

/-- Does `hay` begin with `pat`?  (The comparison done at one position of
std::string::find's scan.) -/
def startsWith : Str → Str → Bool
  | _, [] => true
  | [], _ :: _ => false
  | h :: hs, p :: ps => if h = p then startsWith hs ps else false

/-- std::string::find(pat) != npos: does `pat` occur contiguously in `hay`?
Mirrors the left-to-right scan; the empty pattern is found at position 0. -/
def containsSub (hay pat : Str) : Bool :=
  match hay with
  | [] => pat.isEmpty
  | _ :: t => startsWith hay pat || containsSub t pat

/-- isspace in the "C" locale, as strtoull's leading-whitespace skip uses. -/
def isSpaceC (c : Char) : Bool :=
  c = ' ' || c = '\t' || c = '\n' || c = '\x0b' || c = '\x0c' || c = '\r'

/-- The value of one hexadecimal digit character, none otherwise. -/
def hexVal (c : Char) : Option Nat :=
  if '0' ≤ c ∧ c ≤ '9' then some (c.toNat - '0'.toNat)
  else if 'a' ≤ c ∧ c ≤ 'f' then some (c.toNat - 'a'.toNat + 10)
  else if 'A' ≤ c ∧ c ≤ 'F' then some (c.toNat - 'A'.toNat + 10)
  else none

/-- The value of one digit character in the given base, none when the
character is not a digit of that base. -/
def digitVal (base : Nat) (c : Char) : Option Nat :=
  match hexVal c with
  | some v => if v < base then some v else none
  | none => none

/-- Accumulate the maximal run of digits of `base`, stopping at the first
non-digit, as strtoull's conversion loop does. -/
def takeDigits (base : Nat) : Str → Nat → Nat
  | [], acc => acc
  | c :: cs, acc =>
    match digitVal base c with
    | some v => takeDigits base cs (acc * base + v)
    | none => acc

/-- ULLONG_MAX on the 64-bit targets the plugin is built for. -/
def UMAX : Nat := 2 ^ 64 - 1

/-- c_str() hands strtoull the characters before the first NUL. -/
def cutAtNul (s : Str) : Str := s.takeWhile (fun c => c ≠ '\x00')

/-- C strtoull(s, nullptr, 0): skip leading whitespace, optional sign,
base detection from the 0x/0 prefix, maximal digit run (no conversion
gives 0), clamping to ULLONG_MAX on overflow, and unsigned negation for a
leading minus. -/
def cstrtoull (s : Str) : Nat :=
  let s1 := (cutAtNul s).dropWhile isSpaceC
  let neg : Bool := match s1 with | '-' :: _ => true | _ => false
  let s2 := match s1 with
    | '-' :: rest => rest
    | '+' :: rest => rest
    | other => other
  let mag :=
    if startsWith s2 ['0', 'x'] ∨ startsWith s2 ['0', 'X'] then
      match s2.drop 2 with
      | r0 :: rest => if (hexVal r0).isSome then takeDigits 16 (r0 :: rest) 0 else 0
      | [] => 0
    else if startsWith s2 ['0'] then takeDigits 8 s2 0
    else takeDigits 10 s2 0
  let m := min mag UMAX
  if neg then (2 ^ 64 - m % 2 ^ 64) % 2 ^ 64 else m

/-- The four decoded fields of one JIT code registration
(ParseYAMLDebugInfo's out-parameters addr, size, name, file). -/
structure DebugInfo where
  addr : Nat
  size : Nat
  name : Str
  file : Str
deriving Repr, DecidableEq

/-- The decoder's boolean result together with the four fields it wrote. -/
structure ParseOut where
  ok : Bool
  info : DebugInfo
deriving Repr, DecidableEq

/-- The default values ParseYAMLDebugInfo assigns before scanning. -/
def defaultInfo : DebugInfo :=
  { addr := 0, size := 0, name := "unknown".toList, file := "unknown".toList }

/-- Split on every newline character (the raw cut points of the blob). -/
def splitOnNl : Str → List Str
  | [] => [[]]
  | c :: rest =>
    if c = '\n' then [] :: splitOnNl rest
    else
      match splitOnNl rest with
      | l :: ls => (c :: l) :: ls
      | [] => [[c]]

/-- The lines std::getline yields from an istringstream over the blob:
split on newlines, with no final empty line after a trailing newline and
no line at all from the empty blob. -/
def getlineLines (s : Str) : List Str :=
  let ps := splitOnNl s
  if ps.getLast? = some [] then ps.dropLast else ps

/-- Is the character a space or a tab (the set find_first_not_of(" \t")
skips over in the value)? -/
def isSpaceTab (c : Char) : Bool := c = ' ' || c = '\t'

/-- Drop the value's leading spaces/tabs; when every character is a
space/tab, find_first_not_of returns npos and the value stays unchanged. -/
def trimLeading (v : Str) : Str :=
  let d := v.dropWhile isSpaceTab
  if d.isEmpty then v else d

/-- line.find(':') and the substr split around it: the key before the
first colon and the raw value after it, none when the line has no colon. -/
def splitAtColon : Str → Option (Str × Str)
  | [] => none
  | c :: rest =>
    if c = ':' then some ([], rest)
    else
      match splitAtColon rest with
      | some (k, v) => some (c :: k, v)
      | none => none

/-- One iteration of ParseYAMLDebugInfo's line loop: skip empty lines and
the document marker, split at the first colon, trim the value's leading
whitespace, and assign the field a recognized key names; every other line
leaves the fields untouched. -/
def processLine (r : DebugInfo) (line : Str) : DebugInfo :=
  if line = [] ∨ line = "---".toList then r
  else
    match splitAtColon line with
    | none => r
    | some (key, rawValue) =>
      let value := trimLeading rawValue
      if key = "name".toList then { r with name := value }
      else if key = "start".toList then { r with addr := cstrtoull value }
      else if key = "size".toList then { r with size := cstrtoull value }
      else if key = "file".toList then { r with file := value }
      else r

/-- ParseYAMLDebugInfo (src/DartJITPlugin.cpp:726): scan the blob's lines
over the defaults and report success exactly when both the accumulated
start address and size are non-zero. -/
def ParseYAMLDebugInfo (yaml : Str) : ParseOut :=
  let info := (getlineLines yaml).foldl processLine defaultInfo
  { ok := info.addr != 0 && info.size != 0, info := info }

/-- Lookup in one of the address-keyed unordered_maps (std::unordered_map
find/count: the value stored at the key, none when absent). -/
def mapFind {α : Type} (m : List (Nat × α)) (k : Nat) : Option α :=
  match m with
  | [] => none
  | (k2, v) :: rest => if k2 = k then some v else mapFind rest k

/-- C++ `m[k] = v`: replace the value when the key is present, insert the
pair otherwise. -/
def mapStore {α : Type} (m : List (Nat × α)) (k : Nat) (v : α) : List (Nat × α) :=
  match m with
  | [] => [(k, v)]
  | (k2, v2) :: rest =>
    if k2 = k then (k2, v) :: rest else (k2, v2) :: mapStore rest k v

/-- C++ `m[k]` read through operator[]: the stored value when the key is
present, else the default-constructed value, which is inserted. Returns
the value read and the possibly grown map. -/
def mapIndex {α : Type} (m : List (Nat × α)) (k : Nat) (dflt : α) : α × List (Nat × α) :=
  match m with
  | [] => (dflt, [(k, dflt)])
  | (k2, v2) :: rest =>
    if k2 = k then (v2, (k2, v2) :: rest)
    else
      let p := mapIndex rest k dflt
      (p.1, (k2, v2) :: p.2)

/-- The plugin's global mutable state: the three parallel registry maps
(g_jit_functions, g_jit_files, g_jit_sizes), the pending watch patterns
(g_pending_patterns) and the auto-armed breakpoint addresses
(g_active_bp_addrs). -/
structure JITState where
  functions : List (Nat × Str)
  files : List (Nat × Str)
  sizes : List (Nat × Nat)
  pendingPatterns : List Str
  activeBpAddrs : List Nat
deriving Repr, DecidableEq

/-- The state at plugin load: every container empty. -/
def initialState : JITState :=
  { functions := [], files := [], sizes := [], pendingPatterns := [], activeBpAddrs := [] }

/-- MatchesPending (src/DartJITPlugin.cpp:536): lower-case the candidate
name and each stored pattern and report whether any pattern occurs in the
name. -/
def MatchesPending (patterns : List Str) (fn : Str) : Bool :=
  let fnLower := toLowerStr fn
  patterns.any (fun pat => containsSub fnLower (toLowerStr pat))

/-- What dart-jit-add reports (src/DartJITPlugin.cpp:677). -/
inductive AddResult
  | usage
  | invalidAddress
  | added (addr size : Nat) (name file : Str)
deriving Repr, DecidableEq

/-- DartJITAddCommand::DoExecute: with fewer than three arguments print
usage; parse address and size C-style; reject address 0; otherwise store
the record in the three maps (the optional fourth argument is the file,
defaulting to "unknown"). -/
def DartJITAddCommand (st : JITState) (argv : List Str) : JITState × AddResult :=
  match argv with
  | a0 :: a1 :: a2 :: rest =>
    let addr := cstrtoull a0
    let size := cstrtoull a1
    let name := a2
    let file := match rest with | f :: _ => f | [] => "unknown".toList
    if addr = 0 then (st, AddResult.invalidAddress)
    else
      ({ st with
          functions := mapStore st.functions addr name,
          files := mapStore st.files addr file,
          sizes := mapStore st.sizes addr size }, AddResult.added addr size name file)
  | _ => (st, AddResult.usage)

/-- What dart-jit-break reports (src/DartJITPlugin.cpp:612). -/
inductive BreakResult
  | usage
  | notFound (arg : Str)
  | bpFailed (addr : Nat)
  | success (addr size : Nat)
deriving Repr, DecidableEq

/-- The break command's search loop over g_jit_functions: the first pair
whose name contains the argument. -/
def findFirstMatch : List (Nat × Str) → Str → Option (Nat × Str)
  | [], _ => none
  | (a, n) :: rest, arg =>
    if containsSub n arg then some (a, n) else findFirstMatch rest arg

/-- DartJITBreakCommand::DoExecute: scan the registry for the first name
containing the argument (reading its size through g_jit_sizes[addr]);
report not-found while func_addr is still 0; otherwise ask the host to
create an address breakpoint (`bpCreateOk` models whether the returned
SBBreakpoint is valid) and report the address and size on success. -/
def DartJITBreakCommand (st : JITState) (argv : List Str) (bpCreateOk : Bool) :
    JITState × BreakResult :=
  match argv with
  | [] => (st, BreakResult.usage)
  | arg :: _ =>
    match findFirstMatch st.functions arg with
    | none => (st, BreakResult.notFound arg)
    | some (a, _) =>
      if a = 0 then
        ({ st with sizes := (mapIndex st.sizes a 0).2 }, BreakResult.notFound arg)
      else if bpCreateOk then
        ({ st with sizes := (mapIndex st.sizes a 0).2 },
         BreakResult.success a (mapIndex st.sizes a 0).1)
      else ({ st with sizes := (mapIndex st.sizes a 0).2 }, BreakResult.bpFailed a)

/-- One printed row of dart-jit-list's table: the address, the size, the
possibly truncated name, and the possibly truncated file path. -/
structure ListRow where
  addr : Nat
  size : Nat
  nameDisp : Str
  fileDisp : Str
deriving Repr, DecidableEq

/-- The list command's name column: names beyond 30 characters become
their first 27 characters plus "...". -/
def displayName (name : Str) : Str :=
  if name.length > 30 then name.take 27 ++ "...".toList else name

/-- Is the character one of find_last_of("/\\")'s path separators? -/
def isSlash (c : Char) : Bool := c = '/' || c = '\\'

/-- display_file.find_last_of("/\\"): the index of the last separator. -/
def lastSlashIdx : Str → Option Nat
  | [] => none
  | c :: rest =>
    match lastSlashIdx rest with
    | some i => some (i + 1)
    | none => if isSlash c then some 0 else none

/-- The list command's file column: paths beyond 40 characters become
"..." plus the substring from the last separator when one exists, else
their first 37 characters plus "...". -/
def displayFile (file : Str) : Str :=
  if file.length > 40 then
    match lastSlashIdx file with
    | some i => "...".toList ++ file.drop i
    | none => file.take 37 ++ "...".toList
  else file

/-- The list command's row loop: for each registered function read its
file and size through operator[] (which default-inserts a missing key)
and render the truncated columns. Returns the rows and the two maps the
operator[] reads may have grown. -/
def listRows :
    List (Nat × Str) → List (Nat × Str) → List (Nat × Nat) →
      List ListRow × List (Nat × Str) × List (Nat × Nat)
  | [], files, sizes => ([], files, sizes)
  | (a, n) :: rest, files, sizes =>
    let pf := mapIndex files a []
    let ps := mapIndex sizes a 0
    let r := listRows rest pf.2 ps.2
    ({ addr := a, size := ps.1, nameDisp := displayName n, fileDisp := displayFile pf.1 } :: r.1,
     r.2.1, r.2.2)

/-- DartJITListCommand::DoExecute: an empty registry prints only the
"none registered" message; otherwise render one row per g_jit_functions
entry. -/
def DartJITListCommand (st : JITState) : JITState × List ListRow :=
  if st.functions.isEmpty then (st, [])
  else
    let r := listRows st.functions st.files st.sizes
    ({ st with files := r.2.1, sizes := r.2.2 }, r.1)

/-- DartJITWatchCommand::DoExecute: with no arguments print usage and
fail; otherwise append every non-empty argument to the pending patterns
and report how many were added. -/
def DartJITWatchCommand (st : JITState) (argv : List Str) : JITState × Nat :=
  if argv.isEmpty then (st, 0)
  else
    let pats := argv.filter (fun p => !p.isEmpty)
    ({ st with pendingPatterns := st.pendingPatterns ++ pats }, pats.length)

/-- The host-debugger facts one invocation of the breakpoint callback
observes: whether the __jit_debug_descriptor symbol resolved, the result
of each foreign-memory read (none models SBError failure), the raw
symfile blob read, and whether the "breakpoint set --address" command the
callback issues succeeds. -/
structure CallbackEnv where
  descriptorFound : Bool
  versionRead : Option Nat
  actionRead : Option Nat
  relevantEntryRead : Option Nat
  nextRead : Option Nat
  prevRead : Option Nat
  symfileAddrRead : Option Nat
  symfileSizeRead : Option Nat
  symfileRead : Option Str
  bpCreateOk : Bool
deriving Repr, DecidableEq

/-- Everything one callback invocation does that the rest of the system
can observe: the new global state, the boolean handed back to LLDB
(stop/continue), the registration the two std::cout lines logged (none
when nothing was logged), the address a breakpoint was newly armed at,
and whether the event was detected as a duplicate. -/
structure CallbackOut where
  state : JITState
  stopExecution : Bool
  loggedRegistration : Option DebugInfo
  armedBreakpoint : Option Nat
  duplicate : Bool
deriving Repr, DecidableEq

/-- The event-reading half of BreakpointCallback
(src/DartJITPlugin.cpp:776-844): resolve the descriptor, read version,
action and relevant_entry, give up when any read fails, when there is no
entry or the action is not register (1); then read the entry's four
fields and the symfile blob, giving up on any failure. Yields the raw
blob handed to the decoder. -/
def ReadJITEvent (env : CallbackEnv) : Option Str :=
  if !env.descriptorFound then none
  else
    match env.versionRead, env.actionRead, env.relevantEntryRead with
    | some _, some action, some entry =>
      if entry = 0 ∨ action ≠ 1 then none
      else
        match env.nextRead, env.prevRead, env.symfileAddrRead, env.symfileSizeRead with
        | some _, some _, some _, some _ => env.symfileRead
        | _, _, _, _ => none
    | _, _, _ => none

/-- The registration half of BreakpointCallback
(src/DartJITPlugin.cpp:857-898): upsert the decoded record into the three
maps noting whether the address was already known; a duplicate returns at
once with no log, no matching and no arming; a first sighting logs the
registration and, when a pending pattern matches the name and the address
is not yet auto-armed, asks the host for a breakpoint there and on
success records the address as armed. The three parallel stores of lines
858-865 are factored into `upsertRecord`. -/
def upsertRecord (info : DebugInfo) (st : JITState) : JITState :=
  { st with
      functions := mapStore st.functions info.addr info.name,
      files := mapStore st.files info.addr info.file,
      sizes := mapStore st.sizes info.addr info.size }

/-- The registration half of BreakpointCallback, continued: the branch
structure of lines 857-898 of the source, with the duplicate test read
from the maps before the stores, exactly as already_registered is. -/
def ProcessRegistration (info : DebugInfo) (bpCreateOk : Bool) (st : JITState) : CallbackOut :=
  if (mapFind st.functions info.addr).isSome then
    { state := upsertRecord info st, stopExecution := false, loggedRegistration := none,
      armedBreakpoint := none, duplicate := true }
  else if MatchesPending st.pendingPatterns info.name && !st.activeBpAddrs.contains info.addr then
    if bpCreateOk then
      { state := { upsertRecord info st with
                     activeBpAddrs := info.addr :: (upsertRecord info st).activeBpAddrs },
        stopExecution := false, loggedRegistration := some info,
        armedBreakpoint := some info.addr, duplicate := false }
    else
      { state := upsertRecord info st, stopExecution := false, loggedRegistration := some info,
        armedBreakpoint := none, duplicate := false }
  else
    { state := upsertRecord info st, stopExecution := false, loggedRegistration := some info,
      armedBreakpoint := none, duplicate := false }

/-- BreakpointCallback (src/DartJITPlugin.cpp:776): read and decode the
event, dropping it (continue, state untouched) on any read failure or
decode failure, and otherwise process the registration. Every path hands
false (continue, do not stop) back to LLDB. -/
def noEventOut (st : JITState) : CallbackOut :=
  { state := st, stopExecution := false, loggedRegistration := none,
    armedBreakpoint := none, duplicate := false }

def BreakpointCallback (env : CallbackEnv) (st : JITState) : CallbackOut :=
  match ReadJITEvent env with
  | none => noEventOut st
  | some yaml =>
    if (ParseYAMLDebugInfo yaml).ok then
      ProcessRegistration (ParseYAMLDebugInfo yaml).info env.bpCreateOk st
    else noEventOut st

/-- The states the plugin's globals can reach from load time by any
interleaving of callback invocations and operator commands. -/
inductive Reachable : JITState → Prop
  | init : Reachable initialState
  | addStep (s : JITState) (argv : List Str) :
      Reachable s → Reachable (DartJITAddCommand s argv).1
  | eventStep (s : JITState) (env : CallbackEnv) :
      Reachable s → Reachable (BreakpointCallback env s).state
  | watchStep (s : JITState) (argv : List Str) :
      Reachable s → Reachable (DartJITWatchCommand s argv).1
  | listStep (s : JITState) :
      Reachable s → Reachable (DartJITListCommand s).1
  | breakStep (s : JITState) (argv : List Str) (ok : Bool) :
      Reachable s → Reachable (DartJITBreakCommand s argv ok).1

/-! ### Helper lemmas about the string and map primitives -/

theorem startsWith_iff (pat : Str) : ∀ hay : Str,
    startsWith hay pat = true ↔ ∃ t, hay = pat ++ t := by
  induction pat with
  | nil => intro hay; simp [startsWith]
  | cons p ps ih =>
    intro hay
    cases hay with
    | nil => simp [startsWith]
    | cons h hs =>
      by_cases hp : h = p
      · subst hp
        simp [startsWith, ih]
      · simp [startsWith, hp]

theorem containsSub_iff (pat : Str) : ∀ hay : Str,
    containsSub hay pat = true ↔ ∃ u v, u ++ pat ++ v = hay := by
  intro hay
  induction hay with
  | nil =>
    simp only [containsSub, List.isEmpty_iff]
    constructor
    · rintro rfl; exact ⟨[], [], rfl⟩
    · rintro ⟨u, v, h⟩
      rcases List.append_eq_nil.1 h with ⟨h1, h2⟩
      exact (List.append_eq_nil.1 h1).2
  | cons c t ih =>
    simp only [containsSub, Bool.or_eq_true, startsWith_iff, ih]
    constructor
    · rintro (⟨w, hw⟩ | ⟨u, v, rfl⟩)
      · exact ⟨[], w, hw.symm⟩
      · exact ⟨c :: u, v, rfl⟩
    · rintro ⟨u, v, h⟩
      cases u with
      | nil => exact Or.inl ⟨v, by simpa using h.symm⟩
      | cons x u2 =>
        simp only [List.cons_append, List.cons.injEq] at h
        exact Or.inr ⟨u2, v, h.2⟩

theorem mapFind_eq_none_iff {α : Type} (k : Nat) :
    ∀ m : List (Nat × α), mapFind m k = none ↔ k ∉ m.map Prod.fst := by
  intro m
  induction m with
  | nil => simp [mapFind]
  | cons p rest ih =>
    obtain ⟨k2, v⟩ := p
    by_cases h : k2 = k
    · subst h; simp [mapFind]
    · have hne : k ≠ k2 := fun hh => h hh.symm
      simp [mapFind, h, ih, hne]

theorem mapStore_keys {α : Type} (k : Nat) (v : α) :
    ∀ m : List (Nat × α), (mapStore m k v).map Prod.fst =
      if k ∈ m.map Prod.fst then m.map Prod.fst else m.map Prod.fst ++ [k] := by
  intro m
  induction m with
  | nil => simp [mapStore]
  | cons p rest ih =>
    obtain ⟨k2, v2⟩ := p
    by_cases h : k2 = k
    · subst h; simp [mapStore]
    · have hne : k ≠ k2 := fun hh => h hh.symm
      simp only [mapStore, if_neg h, List.map_cons, ih]
      by_cases hm : k ∈ rest.map Prod.fst
      · simp [hm, hne]
      · simp [hm, hne]

theorem mapIndex_of_find {α : Type} (k : Nat) (d v : α) :
    ∀ m : List (Nat × α), mapFind m k = some v → mapIndex m k d = (v, m) := by
  intro m
  induction m with
  | nil => simp [mapFind]
  | cons p rest ih =>
    obtain ⟨k2, v2⟩ := p
    by_cases h : k2 = k
    · subst h
      intro hv
      simp only [mapFind, if_pos rfl] at hv
      injection hv with hv2
      subst hv2
      simp [mapIndex]
    · simp only [mapFind, if_neg h, mapIndex]
      intro hv
      simp [ih hv]

theorem mapIndex_snd_of_mem {α : Type} (k : Nat) (d : α) (m : List (Nat × α))
    (h : k ∈ m.map Prod.fst) : (mapIndex m k d).2 = m := by
  cases hf : mapFind m k with
  | none => exact absurd h ((mapFind_eq_none_iff k m).1 hf)
  | some v => rw [mapIndex_of_find k d v m hf]

theorem findFirstMatch_eq (arg : Str) : ∀ m : List (Nat × Str),
    findFirstMatch m arg = m.find? (fun p => containsSub p.2 arg) := by
  intro m
  induction m with
  | nil => rfl
  | cons p rest ih =>
    obtain ⟨a, n⟩ := p
    by_cases h : containsSub n arg = true
    · simp [findFirstMatch, List.find?_cons, h]
    · simp only [Bool.not_eq_true] at h
      simp [findFirstMatch, List.find?_cons, h, ih]

theorem parseResult_ok_iff (yaml : Str) :
    (ParseYAMLDebugInfo yaml).ok = true ↔
      (ParseYAMLDebugInfo yaml).info.addr ≠ 0 ∧ (ParseYAMLDebugInfo yaml).info.size ≠ 0 := by
  unfold ParseYAMLDebugInfo
  simp [Bool.and_eq_true, bne_iff_ne]

/-! ### Helper lemmas about the list command's truncation -/

theorem displayName_length_le (name : Str) : (displayName name).length ≤ 30 := by
  unfold displayName
  split
  · simp [List.length_append, List.length_take]
  · omega

theorem lastSlashIdx_none (f : Str) (h : lastSlashIdx f = none) :
    ∀ c ∈ f, isSlash c = false := by
  induction f with
  | nil => simp
  | cons c rest ih =>
    intro x hx
    simp only [lastSlashIdx] at h
    cases hr : lastSlashIdx rest with
    | some i => rw [hr] at h; simp at h
    | none =>
      rw [hr] at h
      by_cases hs : isSlash c = true
      · rw [if_pos hs] at h; simp at h
      · rcases List.mem_cons.1 hx with rfl | hx2
        · simpa using hs
        · exact ih hr x hx2

theorem lastSlashIdx_spec (f : Str) : ∀ i : Nat, lastSlashIdx f = some i →
    ∃ c t, f.drop i = c :: t ∧ isSlash c = true ∧ ∀ x ∈ t, isSlash x = false := by
  induction f with
  | nil => intro i h; simp [lastSlashIdx] at h
  | cons c rest ih =>
    intro i h
    simp only [lastSlashIdx] at h
    cases hr : lastSlashIdx rest with
    | some j =>
      rw [hr] at h
      have hij : i = j + 1 := by
        injection h with h2
        omega
      subst hij
      simpa using ih j hr
    | none =>
      rw [hr] at h
      by_cases hs : isSlash c = true
      · rw [if_pos hs] at h
        have hi0 : i = 0 := by injection h with h2; omega
        subst hi0
        exact ⟨c, rest, rfl, hs, lastSlashIdx_none rest hr⟩
      · rw [if_neg hs] at h
        simp at h

theorem displayFile_spec (f : Str) :
    (displayFile f).length ≤ 40 ∨
      ∃ c t, isSlash c = true ∧ displayFile f = "...".toList ++ c :: t ∧
        ∀ x ∈ t, isSlash x = false := by
  unfold displayFile
  split
  · cases hsl : lastSlashIdx f with
    | some i =>
      obtain ⟨c, t, hd, hc, ht⟩ := lastSlashIdx_spec f i hsl
      refine Or.inr ⟨c, t, hc, ?_, ht⟩
      show "...".toList ++ f.drop i = "...".toList ++ c :: t
      rw [hd]
    | none =>
      left
      simp [List.length_append, List.length_take]
  · left
    omega

/-! ### Helper lemmas for the registry invariant -/

theorem listRows_maps_of_mem :
    ∀ (funcs files : List (Nat × Str)) (sizes : List (Nat × Nat)),
      (∀ a ∈ funcs.map Prod.fst, a ∈ files.map Prod.fst) →
      (∀ a ∈ funcs.map Prod.fst, a ∈ sizes.map Prod.fst) →
      (listRows funcs files sizes).2.1 = files ∧ (listRows funcs files sizes).2.2 = sizes := by
  intro funcs
  induction funcs with
  | nil => intro files sizes hf hs; simp [listRows]
  | cons p rest ih =>
    intro files sizes hf hs
    obtain ⟨a, n⟩ := p
    have hfa : a ∈ files.map Prod.fst := hf a (by simp)
    have hsa : a ∈ sizes.map Prod.fst := hs a (by simp)
    simp only [listRows, mapIndex_snd_of_mem a [] files hfa, mapIndex_snd_of_mem a 0 sizes hsa]
    exact ih files sizes
      (fun b hb => hf b (List.mem_cons_of_mem _ hb))
      (fun b hb => hs b (List.mem_cons_of_mem _ hb))

/-- The registry invariant the reachable states maintain: the three
parallel maps list exactly the same keys in the same order, and the null
address is never a key. -/
def RegInv (s : JITState) : Prop :=
  s.functions.map Prod.fst = s.files.map Prod.fst ∧
  s.functions.map Prod.fst = s.sizes.map Prod.fst ∧
  0 ∉ s.functions.map Prod.fst

theorem regInv_store3 (st : JITState) (a : Nat) (n f : Str) (sz : Nat)
    (h : RegInv st) (ha : a ≠ 0) :
    RegInv { st with functions := mapStore st.functions a n,
                     files := mapStore st.files a f,
                     sizes := mapStore st.sizes a sz } := by
  obtain ⟨h1, h2, h0⟩ := h
  refine ⟨?_, ?_, ?_⟩
  · simp only [mapStore_keys, ← h1]
  · simp only [mapStore_keys, ← h2]
  · simp only [mapStore_keys]
    split
    · exact h0
    · simp only [List.mem_append, List.mem_singleton]
      rintro (hh | hh)
      · exact h0 hh
      · exact ha hh.symm

theorem regInv_add (st : JITState) (argv : List Str) (h : RegInv st) :
    RegInv (DartJITAddCommand st argv).1 := by
  rcases argv with _ | ⟨a0, _ | ⟨a1, _ | ⟨a2, rest⟩⟩⟩ <;>
    simp only [DartJITAddCommand]
  · exact h
  · exact h
  · exact h
  · split
    · exact h
    · exact regInv_store3 st (cstrtoull a0) a2 _ (cstrtoull a1) h (by assumption)

theorem regInv_process (info : DebugInfo) (ok : Bool) (st : JITState)
    (h : RegInv st) (ha : info.addr ≠ 0) :
    RegInv (ProcessRegistration info ok st).state := by
  have hst2 := regInv_store3 st info.addr info.name info.file info.size h ha
  unfold ProcessRegistration
  split
  · exact hst2
  · split
    · split
      · exact hst2
      · exact hst2
    · exact hst2

theorem regInv_event (st : JITState) (env : CallbackEnv) (h : RegInv st) :
    RegInv (BreakpointCallback env st).state := by
  unfold BreakpointCallback
  cases hr : ReadJITEvent env with
  | none => exact h
  | some y =>
    by_cases hok : (ParseYAMLDebugInfo y).ok = true
    · simp only [hok, if_true]
      exact regInv_process _ _ _ h ((parseResult_ok_iff y).1 hok).1
    · simp only [hok, if_false]
      exact h

theorem regInv_watch (st : JITState) (argv : List Str) (h : RegInv st) :
    RegInv (DartJITWatchCommand st argv).1 := by
  unfold DartJITWatchCommand
  split
  · exact h
  · exact h

theorem regInv_list (st : JITState) (h : RegInv st) :
    RegInv (DartJITListCommand st).1 := by
  obtain ⟨h1, h2, h0⟩ := h
  have hp := listRows_maps_of_mem st.functions st.files st.sizes
    (fun a ha => h1 ▸ ha) (fun a ha => h2 ▸ ha)
  simp only [DartJITListCommand]
  split
  · exact ⟨h1, h2, h0⟩
  · refine ⟨?_, ?_, h0⟩
    · show List.map Prod.fst st.functions =
        List.map Prod.fst (listRows st.functions st.files st.sizes).2.1
      rw [hp.1]
      exact h1
    · show List.map Prod.fst st.functions =
        List.map Prod.fst (listRows st.functions st.files st.sizes).2.2
      rw [hp.2]
      exact h2

theorem findFirstMatch_mem (m : List (Nat × Str)) (arg : Str) (a : Nat) (n : Str)
    (h : findFirstMatch m arg = some (a, n)) : (a, n) ∈ m := by
  rw [findFirstMatch_eq] at h
  exact List.mem_of_find?_eq_some h

theorem regInv_break (st : JITState) (argv : List Str) (ok : Bool) (h : RegInv st) :
    RegInv (DartJITBreakCommand st argv ok).1 := by
  obtain ⟨h1, h2, h0⟩ := h
  rcases argv with _ | ⟨arg, rest⟩
  · exact ⟨h1, h2, h0⟩
  · simp only [DartJITBreakCommand]
    cases hm : findFirstMatch st.functions arg with
    | none => exact ⟨h1, h2, h0⟩
    | some p =>
      obtain ⟨a, n⟩ := p
      have hka : a ∈ st.functions.map Prod.fst :=
        List.mem_map_of_mem Prod.fst (findFirstMatch_mem st.functions arg a n hm)
      have hsz : (mapIndex st.sizes a 0).2 = st.sizes :=
        mapIndex_snd_of_mem a 0 st.sizes (h2 ▸ hka)
      simp only [hsz]
      split
      · exact ⟨h1, h2, h0⟩
      · split
        · exact ⟨h1, h2, h0⟩
        · exact ⟨h1, h2, h0⟩

theorem reachable_regInv (s : JITState) (h : Reachable s) : RegInv s := by
  induction h with
  | init => exact ⟨rfl, rfl, by simp [initialState]⟩
  | addStep s argv hr ih => exact regInv_add s argv ih
  | eventStep s env hr ih => exact regInv_event s env ih
  | watchStep s argv hr ih => exact regInv_watch s argv ih
  | listStep s hr ih => exact regInv_list s ih
  | breakStep s argv ok hr ih => exact regInv_break s argv ok ih

/-! ### Additional row-shape helper for the list command -/

theorem listRows_row_shape :
    ∀ (funcs files : List (Nat × Str)) (sizes : List (Nat × Nat)),
      ∀ row ∈ (listRows funcs files sizes).1,
        (∃ n, row.nameDisp = displayName n) ∧ ∃ f, row.fileDisp = displayFile f := by
  intro funcs
  induction funcs with
  | nil => intro files sizes row hrow; simp [listRows] at hrow
  | cons p rest ih =>
    intro files sizes row hrow
    obtain ⟨a, n⟩ := p
    simp only [listRows, List.mem_cons] at hrow
    rcases hrow with rfl | hrow
    · exact ⟨⟨n, rfl⟩, ⟨(mapIndex files a []).1, rfl⟩⟩
    · exact ih _ _ row hrow

/-! ### The claims -/

/-- C1: the metadata decoder returns success if and only if both the
parsed start and the parsed size end up non-zero; being a total function
of the blob it returns on every input, malformed ones included, and
signals failure only through its boolean result. -/
theorem claim_C1_decoder_success_iff (yaml : Str) :
    (ParseYAMLDebugInfo yaml).ok = true ↔
      (ParseYAMLDebugInfo yaml).info.addr ≠ 0 ∧ (ParseYAMLDebugInfo yaml).info.size ≠ 0 :=
  parseResult_ok_iff yaml

/-- C2: when the callback decodes a record whose address already has a
registry entry, the event is treated as a duplicate: it reports
already-known, logs nothing, performs no pattern-match arming, and leaves
the armed-breakpoint set unchanged. -/
theorem claim_C2_duplicate_suppressed (env : CallbackEnv) (st : JITState) (y : Str)
    (hr : ReadJITEvent env = some y)
    (hok : (ParseYAMLDebugInfo y).ok = true)
    (hdup : (mapFind st.functions (ParseYAMLDebugInfo y).info.addr).isSome = true) :
    (BreakpointCallback env st).duplicate = true ∧
    (BreakpointCallback env st).loggedRegistration = none ∧
    (BreakpointCallback env st).armedBreakpoint = none ∧
    (BreakpointCallback env st).state.activeBpAddrs = st.activeBpAddrs := by
  unfold BreakpointCallback
  rw [hr]
  simp only [hok, if_true]
  unfold ProcessRegistration
  rw [if_pos hdup]
  exact ⟨rfl, rfl, rfl, rfl⟩

/-- The environment of a registration event for an address (1) that the
registry below already holds. -/
def dupEnv : CallbackEnv :=
  { descriptorFound := true, versionRead := some 1, actionRead := some 1,
    relevantEntryRead := some 100, nextRead := some 0, prevRead := some 0,
    symfileAddrRead := some 200, symfileSizeRead := some 16,
    symfileRead := some "start: 1\nsize: 2".toList, bpCreateOk := true }

/-- A registry already holding address 1, with a pattern that would match
the incoming name were the event not a duplicate. -/
def dupState : JITState :=
  { functions := [(1, "old".toList)], files := [(1, "f.dart".toList)],
    sizes := [(1, 2)], pendingPatterns := ["unknown".toList], activeBpAddrs := [] }

/-- Witness for C2 at a concrete duplicate event. -/
theorem claim_C2_witness :
    (BreakpointCallback dupEnv dupState).duplicate = true ∧
    (BreakpointCallback dupEnv dupState).loggedRegistration = none ∧
    (BreakpointCallback dupEnv dupState).armedBreakpoint = none ∧
    (BreakpointCallback dupEnv dupState).state.activeBpAddrs = dupState.activeBpAddrs :=
  claim_C2_duplicate_suppressed dupEnv dupState "start: 1\nsize: 2".toList
    (by decide) (by decide) (by decide)

/-- The manual add that inserts a record with size 0. -/
def zeroSizeArgv : List Str := ["0x1000".toList, "0".toList, "Test".toList]

/-- The registry state reached by that add: key 0x1000 present with size 0. -/
def zeroSizeState : JITState := (DartJITAddCommand initialState zeroSizeArgv).1

/-- C3 counterexample: a reachable state whose registry holds a key with
size 0 — the manual add path checks only the address, never the size, so
the claimed size-positivity part of the invariant fails. -/
theorem claim_C3_counterexample :
    Reachable zeroSizeState ∧
    mapFind zeroSizeState.functions 4096 = some "Test".toList ∧
    mapFind zeroSizeState.sizes 4096 = some 0 :=
  ⟨Reachable.addStep initialState zeroSizeArgv Reachable.init, by decide, by decide⟩

/-- C3 amended: at every reachable state the three parallel registry
views hold exactly the same keys in the same order — no half-written entries —
though a record's size can be 0 when it entered through the manual add
command. -/
theorem claim_C3_amended (s : JITState) (h : Reachable s) :
    s.functions.map Prod.fst = s.files.map Prod.fst ∧
    s.functions.map Prod.fst = s.sizes.map Prod.fst :=
  ⟨(reachable_regInv s h).1, (reachable_regInv s h).2.1⟩

/-- The manual add of a well-formed record, for exercising invariants. -/
def addState1Argv : List Str :=
  ["0x10".toList, "5".toList, "Foo".toList, "foo.dart".toList]

/-- The state reached by that add. -/
def addState1 : JITState := (DartJITAddCommand initialState addState1Argv).1

/-- Witness for amended C3 at a concrete reachable state. -/
theorem claim_C3_witness :
    addState1.functions.map Prod.fst = addState1.files.map Prod.fst ∧
    addState1.functions.map Prod.fst = addState1.sizes.map Prod.fst :=
  claim_C3_amended addState1 (Reachable.addStep initialState addState1Argv Reachable.init)

/-- C4: MatchesPending is true exactly when some stored pattern,
lower-cased, occurs as a substring of the lower-cased candidate name; in
particular pattern "isolateShutdown" matches the qualified name
"RunningIsolates.isolateShutdown". -/
theorem claim_C4_matches_pending :
    (∀ (pats : List Str) (fn : Str),
      MatchesPending pats fn = true ↔
        ∃ pat ∈ pats, ∃ u v, u ++ toLowerStr pat ++ v = toLowerStr fn) ∧
    MatchesPending ["isolateShutdown".toList] "RunningIsolates.isolateShutdown".toList = true := by
  constructor
  · intro pats fn
    unfold MatchesPending
    rw [List.any_eq_true]
    constructor
    · rintro ⟨pat, hmem, hc⟩
      exact ⟨pat, hmem, (containsSub_iff (toLowerStr pat) (toLowerStr fn)).1 hc⟩
    · rintro ⟨pat, hmem, hsub⟩
      exact ⟨pat, hmem, (containsSub_iff (toLowerStr pat) (toLowerStr fn)).2 hsub⟩
  · decide

/-- C5: the break command selects the first registry record in iteration
order whose name contains the argument as a case-sensitive substring,
reporting its address and size on success; when no record's name contains
the argument it fails not-found, creating no breakpoint and leaving the
state unchanged. (The hypothesis that address 0 is not a key holds of
every reachable registry, by C10's invariant.) -/
theorem claim_C5_break_first_match (st : JITState) (arg : Str) (ok : Bool)
    (hnz : mapFind st.functions 0 = none) :
    ((∀ p ∈ st.functions, ¬ ∃ u v, u ++ arg ++ v = p.2) →
        DartJITBreakCommand st [arg] ok = (st, BreakResult.notFound arg)) ∧
    (∀ a n sz, st.functions.find? (fun p => containsSub p.2 arg) = some (a, n) →
        mapFind st.sizes a = some sz →
        DartJITBreakCommand st [arg] ok =
          (st, if ok then BreakResult.success a sz else BreakResult.bpFailed a)) := by
  constructor
  · intro hnone
    have hfm : findFirstMatch st.functions arg = none := by
      rw [findFirstMatch_eq, List.find?_eq_none]
      intro p hp hc
      exact hnone p hp ((containsSub_iff arg p.2).1 hc)
    simp only [DartJITBreakCommand, hfm]
  · intro a n sz hfind hsz
    have hfm : findFirstMatch st.functions arg = some (a, n) := by
      rw [findFirstMatch_eq]; exact hfind
    have hka : a ∈ st.functions.map Prod.fst :=
      List.mem_map_of_mem Prod.fst (List.mem_of_find?_eq_some hfind)
    have ha : a ≠ 0 := by
      intro h0
      subst h0
      exact absurd hka ((mapFind_eq_none_iff 0 st.functions).1 hnz)
    have hidx : mapIndex st.sizes a 0 = (sz, st.sizes) := mapIndex_of_find a 0 sz st.sizes hsz
    simp only [DartJITBreakCommand, hfm, hidx, if_neg ha]
    cases ok
    · simp
    · simp

/-- The registry of C5's scenario: one record Bar.baz at 0x2000 of size 32. -/
def breakState : JITState :=
  { functions := [(8192, "Bar.baz".toList)], files := [(8192, "bar.dart".toList)],
    sizes := [(8192, 32)], pendingPatterns := [], activeBpAddrs := [] }

/-- Witness for C5 at the spec's scenario: break baz succeeds with
address 0x2000 and size 32, break nope fails not-found. -/
theorem claim_C5_witness :
    DartJITBreakCommand breakState ["baz".toList] true =
      (breakState, BreakResult.success 8192 32) ∧
    DartJITBreakCommand breakState ["nope".toList] true =
      (breakState, BreakResult.notFound "nope".toList) := by
  constructor
  · have h := (claim_C5_break_first_match breakState "baz".toList true (by decide)).2
      8192 "Bar.baz".toList 32 (by decide) (by decide)
    simpa using h
  · apply (claim_C5_break_first_match breakState "nope".toList true (by decide)).1
    intro p hp
    have hp2 : p = (8192, "Bar.baz".toList) := by
      simpa [breakState] using hp
    subst hp2
    rintro ⟨u, v, huv⟩
    have hcs : containsSub "Bar.baz".toList "nope".toList = true :=
      (containsSub_iff "nope".toList "Bar.baz".toList).2 ⟨u, v, huv⟩
    exact absurd hcs (by decide)

/-- The keys the decoder's line loop assigns fields from. -/
def recognizedKeys : List Str :=
  ["name".toList, "start".toList, "size".toList, "file".toList]

/-- C6: decoding yields the fields exactly as written — the spec's
scenario blob decodes to the expected record, absent name/file default to
"unknown" while unrecognized keys are ignored, the empty blob yields the
defaults with failure, and any line whose key is not one of name, start,
size, file (including document markers and lines without a colon) leaves
the fields untouched. -/
theorem claim_C6_decode_fields :
    ParseYAMLDebugInfo "---\nname: Foo.bar\nstart: 0x1000\nsize: 64\nfile: foo.dart\n".toList =
      { ok := true,
        info := { addr := 4096, size := 64,
                  name := "Foo.bar".toList, file := "foo.dart".toList } } ∧
    ParseYAMLDebugInfo "start: 1\nsize: 2\nflavor: odd\n".toList =
      { ok := true,
        info := { addr := 1, size := 2,
                  name := "unknown".toList, file := "unknown".toList } } ∧
    ParseYAMLDebugInfo [] = { ok := false, info := defaultInfo } ∧
    (∀ (r : DebugInfo) (line : Str),
      (∀ kv, splitAtColon line = some kv → kv.1 ∉ recognizedKeys) →
      processLine r line = r) := by
  refine ⟨by decide, by decide, by decide, ?_⟩
  intro r line hk
  unfold processLine
  split
  · rfl
  · cases hc : splitAtColon line with
    | none => rfl
    | some kv =>
      obtain ⟨key, raw⟩ := kv
      have hmem := hk (key, raw) hc
      simp only [recognizedKeys, List.mem_cons, List.not_mem_nil, or_false] at hmem
      push_neg at hmem
      obtain ⟨hn, hs, hz, hf⟩ := hmem
      have hn2 : key ≠ ['n', 'a', 'm', 'e'] := hn
      have hs2 : key ≠ ['s', 't', 'a', 'r', 't'] := hs
      have hz2 : key ≠ ['s', 'i', 'z', 'e'] := hz
      have hf2 : key ≠ ['f', 'i', 'l', 'e'] := hf
      simp [hn2, hs2, hz2, hf2]

/-- C7: the add command whose address argument parses to 0 is rejected as
an invalid address, and the whole state is left unchanged. -/
theorem claim_C7_add_zero_rejected (st : JITState) (a0 a1 a2 : Str) (rest : List Str)
    (h : cstrtoull a0 = 0) :
    DartJITAddCommand st (a0 :: a1 :: a2 :: rest) = (st, AddResult.invalidAddress) := by
  simp only [DartJITAddCommand, h, if_pos]

/-- Witness for C7 at the spec's scenario `add 0 10 Test`. -/
theorem claim_C7_witness :
    DartJITAddCommand initialState ["0".toList, "10".toList, "Test".toList] =
      (initialState, AddResult.invalidAddress) :=
  claim_C7_add_zero_rejected initialState "0".toList "10".toList "Test".toList [] (by decide)

/-- C8: every invocation of the breakpoint callback — failed symbol
resolution, failed memory reads, a non-register action, a failed decode,
or a registration processed to completion — tells the host debugger not
to stop the debuggee. -/
theorem claim_C8_never_stops (env : CallbackEnv) (st : JITState) :
    (BreakpointCallback env st).stopExecution = false := by
  unfold BreakpointCallback
  cases ReadJITEvent env with
  | none => rfl
  | some y =>
    by_cases hok : (ParseYAMLDebugInfo y).ok = true
    · simp only [hok, if_true]
      unfold ProcessRegistration
      split
      · rfl
      · split
        · split
          · rfl
          · rfl
        · rfl
    · simp only [hok, if_false]
      rfl

/-- The manual add of a record whose source-file path is longer than 40
characters with a long final component. -/
def longFileArgv : List Str :=
  ["0x2000".toList, "7".toList, "LongPath".toList,
   "d/aaaaaaaaaaaaaaaaaaaaaaaaaaaaaaaaaaaaaaaaaaaaaaaaaa".toList]

/-- The reachable registry holding that record. -/
def longFileState : JITState := (DartJITAddCommand initialState longFileArgv).1

/-- C9 counterexample: at a reachable registry, the list command renders
a source-file column of 54 characters — truncation through the last path
separator keeps the final component whole, so the displayed path can
exceed 40 characters. -/
theorem claim_C9_counterexample :
    Reachable longFileState ∧
    (DartJITListCommand longFileState).2.map (fun r => r.fileDisp.length) = [54] ∧
    ¬ ∀ r ∈ (DartJITListCommand longFileState).2, r.fileDisp.length ≤ 40 :=
  ⟨Reachable.addStep initialState longFileArgv Reachable.init, by decide, by decide⟩

/-- C9 amended: every displayed name occupies at most 30 characters; a
displayed file path either occupies at most 40 characters or is "..."
followed by the path's final component (its leading separator included),
which can exceed 40; on any state whose three views are aligned (as all
reachable states are) the command mutates nothing. -/
theorem claim_C9_amended (st : JITState)
    (h1 : st.functions.map Prod.fst = st.files.map Prod.fst)
    (h2 : st.functions.map Prod.fst = st.sizes.map Prod.fst) :
    (DartJITListCommand st).1 = st ∧
    ∀ r ∈ (DartJITListCommand st).2,
      r.nameDisp.length ≤ 30 ∧
      (r.fileDisp.length ≤ 40 ∨
        ∃ c t, isSlash c = true ∧ r.fileDisp = "...".toList ++ c :: t ∧
          ∀ x ∈ t, isSlash x = false) := by
  have hp := listRows_maps_of_mem st.functions st.files st.sizes
    (fun a ha => h1 ▸ ha) (fun a ha => h2 ▸ ha)
  constructor
  · simp only [DartJITListCommand]
    split
    · rfl
    · show ({ st with files := (listRows st.functions st.files st.sizes).2.1,
                      sizes := (listRows st.functions st.files st.sizes).2.2 } : JITState) = st
      rw [hp.1, hp.2]
  · intro r hr
    have hmem : r ∈ (listRows st.functions st.files st.sizes).1 := by
      simp only [DartJITListCommand] at hr
      split at hr
      · simp at hr
      · exact hr
    obtain ⟨⟨n, hn⟩, ⟨f, hf⟩⟩ := listRows_row_shape st.functions st.files st.sizes r hmem
    constructor
    · rw [hn]; exact displayName_length_le n
    · rw [hf]; exact displayFile_spec f

/-- Witness for amended C9 at a concrete aligned state. -/
theorem claim_C9_witness :
    (DartJITListCommand addState1).1 = addState1 ∧
    ∀ r ∈ (DartJITListCommand addState1).2,
      r.nameDisp.length ≤ 30 ∧
      (r.fileDisp.length ≤ 40 ∨
        ∃ c t, isSlash c = true ∧ r.fileDisp = "...".toList ++ c :: t ∧
          ∀ x ∈ t, isSlash x = false) :=
  claim_C9_amended addState1 (by decide) (by decide)

/-- C10: address 0 can never become a key of the registry — the manual
add rejects address 0, the event reader inserts only successfully decoded
records, which have non-zero addresses, and the read paths only touch
keys the function map already holds — so the break command's use of 0 as
its not-found sentinel cannot collide with a real entry. -/
theorem claim_C10_zero_never_key (s : JITState) (h : Reachable s) :
    mapFind s.functions 0 = none ∧ mapFind s.files 0 = none ∧ mapFind s.sizes 0 = none := by
  obtain ⟨h1, h2, h0⟩ := reachable_regInv s h
  refine ⟨?_, ?_, ?_⟩
  · exact (mapFind_eq_none_iff 0 s.functions).2 h0
  · exact (mapFind_eq_none_iff 0 s.files).2 (h1 ▸ h0)
  · exact (mapFind_eq_none_iff 0 s.sizes).2 (h2 ▸ h0)

/-- Witness for C10 at a concrete reachable state. -/
theorem claim_C10_witness :
    mapFind zeroSizeState.functions 0 = none ∧
    mapFind zeroSizeState.files 0 = none ∧
    mapFind zeroSizeState.sizes 0 = none :=
  claim_C10_zero_never_key zeroSizeState
    (Reachable.addStep initialState zeroSizeArgv Reachable.init)

end DartJIT
